import Mathlib

/-!
Verification of the pdfTallyconverter backend (src/backend/main.py).

The development shallowly embeds the pipeline functions the specification
talks about: `process_image_ocr`, `extract_tables_from_pdf`, `convert_file`
(with the `pd.concat` normalization step), the exporters `save_as_xlsx`,
`save_as_csv`, `save_as_xml`, and `validate_table`.  Python strings are
modelled as Lean `String`/`List Char`; Python library primitives that the
source calls (`str.strip`, `str.split`, `float(...)`, `datetime.strptime`
with format `%Y-%m-%d`, `in` substring tests, `pd.DataFrame`/`pd.concat`
column alignment, `xml.etree.ElementTree` tree construction) are modelled
faithfully on ASCII data; the Unicode-decimal transliteration that CPython
additionally performs inside `float` and `re.\d` is outside the data these
claims quantify over and is noted where relevant.
-/

/-! ## Python string primitives -/

/-- The whitespace set of Python `str.strip()` / `str.split()` / `str.isspace()`:
ASCII whitespace plus the Unicode space separators CPython treats as space. -/
def isPySpace (c : Char) : Bool :=
  let n := c.toNat
  (0x09 ≤ n && n ≤ 0x0d) || n = 0x20 || (0x1c ≤ n && n ≤ 0x1f) ||
  n = 0x85 || n = 0xa0 || n = 0x1680 || (0x2000 ≤ n && n ≤ 0x200a) ||
  n = 0x2028 || n = 0x2029 || n = 0x202f || n = 0x205f || n = 0x3000

/-- Strip `isPySpace` characters from both ends of a character list. -/
def pyStripList (l : List Char) : List Char :=
  ((l.dropWhile isPySpace).reverse.dropWhile isPySpace).reverse

/-- Python `s.strip()`. -/
def pyStrip (s : String) : String := ⟨pyStripList s.data⟩

/-- Split a character list at every occurrence of one separator character,
keeping empty groups: the semantics of Python `s.split(sep)` for a one-character
separator.  In particular `splitOnChar sep [] = [[]]`, matching Python's
`"".split(sep) == ['']`. -/
def splitOnChar (sep : Char) : List Char → List (List Char)
  | [] => [[]]
  | c :: rest =>
    match splitOnChar sep rest with
    | [] => [[c]]
    | g :: gs => if c = sep then [] :: g :: gs else (c :: g) :: gs

/-- Python `s.split()` with no argument: split on runs of whitespace,
producing no empty words. -/
def pySplitWs (l : List Char) : List (List Char) :=
  (pySplitAll l).filter (fun w => w ≠ [])
where
  /-- Split at every single whitespace character (keeping empties). -/
  pySplitAll : List Char → List (List Char)
  | [] => [[]]
  | c :: rest =>
    match pySplitAll rest with
    | [] => [[c]]
    | g :: gs => if isPySpace c then [] :: g :: gs else (c :: g) :: gs

/-- Python `needle in haystack` on character lists (contiguous substring). -/
def hasSubstr (pat : List Char) : List Char → Bool
  | [] => pat.isEmpty
  | c :: rest => List.isPrefixOf pat (c :: rest) || hasSubstr pat rest

/-- Python `pat in s` for strings. -/
def pyIn (pat s : String) : Bool := hasSubstr pat.data s.data

/-- Python `s.replace(',', '')`: delete every comma. -/
def removeCommas (s : String) : String := ⟨s.data.filter (fun c => c ≠ ',')⟩

/-- Python `s.lower()` (ASCII range, which is all the source compares). -/
def pyLower (s : String) : String := ⟨s.data.map Char.toLower⟩

/-! ## Python `float(...)` acceptance

`validate_table` calls `float(cell.replace(',', '').strip())` and treats a
`ValueError` as the rule violation.  `pyFloatOk` decides whether CPython's
`float` accepts a (already stripped) ASCII string: optional sign, then
`inf`/`infinity`/`nan` (case-insensitively) or a decimal literal
`digits [. digits] [exponent]` / `. digits [exponent]`, where underscores
may appear strictly between two digits (PEP 515). -/

def isAsciiDigit (c : Char) : Bool := '0' ≤ c && c ≤ '9'

/-- Each underscore must sit strictly between two ASCII digits.
The first argument is the previous character (`none` at the start). -/
def underscoresOk : Option Char → List Char → Bool
  | _, [] => true
  | prev, c :: rest =>
    if c = '_' then
      (match prev with | some p => isAsciiDigit p | none => false) &&
      (match rest with | d :: _ => isAsciiDigit d | [] => false) &&
      underscoresOk (some c) rest
    else underscoresOk (some c) rest

/-- Exponent tail after the mantissa: empty, or `e`/`E`, optional sign, digits. -/
def floatExpTail (l : List Char) : Bool :=
  match l with
  | [] => true
  | c :: rest =>
    (c = 'e' || c = 'E') &&
    (let r := match rest with
              | s :: r' => if s = '+' || s = '-' then r' else rest
              | [] => rest
     !r.isEmpty && r.all isAsciiDigit)

/-- Mantissa-plus-exponent form, after sign removal and underscore removal. -/
def floatNumberOk (l : List Char) : Bool :=
  let intPart := l.takeWhile isAsciiDigit
  let rest := l.dropWhile isAsciiDigit
  match rest with
  | [] => !intPart.isEmpty
  | '.' :: r2 =>
    let frac := r2.takeWhile isAsciiDigit
    let r3 := r2.dropWhile isAsciiDigit
    (!intPart.isEmpty || !frac.isEmpty) && floatExpTail r3
  | _ => !intPart.isEmpty && floatExpTail rest

/-- Whether CPython `float(s)` succeeds on the string `s`. -/
def pyFloatOk (s : String) : Bool :=
  let l := pyStripList s.data
  underscoresOk none l &&
  (let l := l.filter (fun c => c ≠ '_')
   let body := match l with
               | c :: rest => if c = '+' || c = '-' then rest else l
               | [] => l
   let low := body.map Char.toLower
   low = "inf".data || low = "infinity".data || low = "nan".data ||
   floatNumberOk body)

/-! ## Python `datetime.strptime(s, '%Y-%m-%d')` acceptance

CPython's `_strptime` compiles `%Y-%m-%d` to the regular expression
`(\d\d\d\d)-(1[0-2]|0[1-9]|[1-9])-(3[01]|[12]\d|0[1-9]|[1-9])`, requires it
to consume the whole string, and then builds `datetime(year, month, day)`,
which additionally demands `1 <= year` and a day valid for the month in the
proleptic Gregorian calendar.  Since every group is digits-only and the two
literal dashes are the only dashes, a string is accepted iff splitting on
`-` yields exactly three such groups. -/

/-- Numeric value of an ASCII digit string (the `int(...)` the date parse
performs on each matched group). -/
def digitsToNat (l : List Char) : Nat :=
  l.foldl (fun acc c => acc * 10 + (c.toNat - 48)) 0

def isLeapYear (y : Nat) : Bool := y % 4 = 0 && (y % 100 ≠ 0 || y % 400 = 0)

def daysInMonth (y m : Nat) : Nat :=
  if m = 2 then (if isLeapYear y then 29 else 28)
  else if m = 4 || m = 6 || m = 9 || m = 11 then 30
  else 31

/-- Digit string of one or two characters denoting a value in `[lo, hi]` —
the shape of the `%m` and `%d` alternations. -/
def twoDigitField (lo hi : Nat) (g : List Char) : Bool :=
  (g.length = 1 || g.length = 2) && g.all isAsciiDigit &&
  (let v := digitsToNat g
   lo ≤ v && v ≤ hi)

/-- Whether `datetime.strptime(s, '%Y-%m-%d')` succeeds on `s`. -/
def strptimeYmd (s : String) : Bool :=
  match splitOnChar '-' s.data with
  | [y, m, d] =>
    y.length = 4 && y.all isAsciiDigit &&
    twoDigitField 1 12 m && twoDigitField 1 31 d &&
    (let yv := digitsToNat y
     let mv := digitsToNat m
     let dv := digitsToNat d
     1 ≤ yv && dv ≤ daysInMonth yv mv)
  | _ => false

/-! ## `validate_table` (src/backend/main.py lines 539-595)

The source iterates `for row_idx, row in enumerate(data)`, then
`for col_idx, cell in enumerate(row)`, skips the header row (`row_idx == 0`),
and for every other cell appends findings in this order: mandatory-field,
numeric, date, OCR-confusion. -/

structure Finding where
  row : Nat
  column : Nat
  type : String
  severity : String
  message : String
deriving DecidableEq, Repr

/-- The first three rule classes of `validate_table`, for the cell at
`(r, c)` with raw text `cell`. -/
def cellFindingsCore (r c : Nat) (cell : String) : List Finding :=
  (if pyStrip cell = "" ∧ (c = 0 ∨ c = 1 ∨ c = 2) then
    [{ row := r, column := c, type := "error", severity := "critical",
       message := "Mandatory field cannot be empty" }] else []) ++
  (if (c = 3 ∨ c = 4) ∧ pyFloatOk (pyStrip (removeCommas cell)) = false then
    [{ row := r, column := c, type := "error", severity := "critical",
       message := "Value must be numeric" }] else []) ++
  (if c = 2 ∧ strptimeYmd (pyStrip cell) = false then
    [{ row := r, column := c, type := "error", severity := "warning",
       message := "Invalid date format (should be YYYY-MM-DD)" }] else [])

/-- Python `any(char in cell for char in ['O0', 'l1', 'S5'])` — note the
source's `char` variables are two-character strings, so this is a substring
test for the three digraphs. -/
def hasConfusable (cell : String) : Bool :=
  pyIn "O0" cell || pyIn "l1" cell || pyIn "S5" cell

/-- All findings `validate_table` appends for one non-header cell. -/
def cellFindings (r c : Nat) (cell : String) : List Finding :=
  cellFindingsCore r c cell ++
  (if hasConfusable cell then
    [{ row := r, column := c, type := "warning", severity := "info",
       message := "Possible OCR confusion (O/0, l/1, S/5)" }] else [])

/-- The inner `enumerate(row)` loop, starting at column index `c`. -/
def rowFindings (r : Nat) : Nat → List String → List Finding
  | _, [] => []
  | c, cell :: rest => cellFindings r c cell ++ rowFindings r (c + 1) rest

/-- The outer `enumerate(data)` loop, starting at row index `r`;
row index 0 is skipped. -/
def tableFindings : Nat → List (List String) → List Finding
  | _, [] => []
  | r, row :: rest =>
    (if r = 0 then [] else rowFindings r 0 row) ++ tableFindings (r + 1) rest

/-- `validate_table(data)`. -/
def validate_table (data : List (List String)) : List Finding :=
  tableFindings 0 data

/-! ## PDF extraction and normalization (lines 184-304)

`extract_tables_from_pdf` walks pages in order and, per detected table,
builds `pd.DataFrame(table[1:], columns=table[0])`; we model the
`pdfplumber` output as the list of detected raw tables, flattened in page
order then in-page detection order.  `convert_file` then merges them with
`pd.concat(dataframes, ignore_index=True)`, which aligns columns *by
label* (outer join, unsorted, so label order of first appearance) and pads
missing cells with NaN, modelled as `none`. -/

/-- A raw table as detected on a page: rows of raw text cells. -/
abbrev RawTable := List (List String)

/-- A `pandas.DataFrame` holding raw string cells. -/
structure Frame where
  headers : List String
  rows : List (List String)
deriving DecidableEq, Repr

/-- A `pandas.DataFrame` whose cells may be NaN (`none`), as produced by
`pd.concat` over frames with differing column labels. -/
structure CFrame where
  headers : List String
  rows : List (List (Option String))
deriving DecidableEq, Repr

/-- `pd.DataFrame(table[1:], columns=table[0])`: each detected table's own
first row becomes its column labels, the remaining rows its data. -/
def tableToFrame (t : RawTable) : Frame :=
  { headers := t.headD [], rows := t.tail }

/-- `extract_tables_from_pdf` (lines 184-197): one `DataFrame` per
non-empty detected table, in page/detection order. -/
def extract_tables_from_pdf (tables : List RawTable) : List Frame :=
  (tables.filter (fun t => t ≠ [])).map tableToFrame

/-- Index of the first occurrence of a label in a label list. -/
def labelIndex (a : String) : List String → Option Nat
  | [] => none
  | b :: l => if b = a then some 0 else (labelIndex a l).map (· + 1)

/-- Column labels of `pd.concat(fs)`: union in order of first appearance
(`join='outer'`, `sort=False`). -/
def unionColumns (fs : List Frame) : List String :=
  fs.foldl (fun acc f => acc ++ f.headers.filter (fun h => !acc.contains h)) []

/-- Reindex one raw row (with labels `hs`) against the concatenated column
list `cols`; labels absent from `hs` produce NaN. -/
def alignRow (cols hs : List String) (r : List String) : List (Option String) :=
  cols.map (fun c => (labelIndex c hs).bind (fun i => r[i]?))

/-- `pd.concat(dataframes, ignore_index=True)` for frames with
duplicate-free column labels: label-aligned row-wise concatenation. -/
def pd_concat (fs : List Frame) : CFrame :=
  let cols := unionColumns fs
  { headers := cols,
    rows := (fs.map (fun f => f.rows.map (alignRow cols f.headers))).flatten }

/-- Modelled from the spec/claim wording for C2, *not* from the source:
"headers equal the first raw table's first row, and the row sequence is
every row after that single header row across all k raw tables,
concatenated in page/detection order, each raw row mapped to headers by
position".  Used only to compare against the source's behaviour. -/
def normalize_claimed (tables : List RawTable) : CFrame :=
  { headers := (tables.headD []).headD [],
    rows := tables.flatten.tail.map (fun r => r.map some) }

/-! ## `process_image_ocr` and `convert_file` (lines 199-304) -/

inductive ConvErr where
  /-- A raised `ConversionError(msg)`. -/
  | conversion (msg : String)
  /-- A raised `HTTPException(status_code, detail)`. -/
  | http (status : Nat) (msg : String)
deriving DecidableEq, Repr

/-- `process_image_ocr` (lines 199-225), as a function of the text block
the OCR engine returned for the image.  The source strips the text, splits
it on newlines, raises `ConversionError` if the resulting list is empty
(unreachable: `str.split('\n')` never returns an empty list), treats the
first line as headers and the remaining lines as whitespace-split rows,
and builds `pd.DataFrame(data, columns=headers)` — which raises if the
widest row disagrees with the header count and pads shorter rows with NaN.
Any exception is re-raised as `ConversionError('Failed to process image: ...')`. -/
def process_image_ocr (ocrText : String) : Except ConvErr CFrame :=
  match splitOnChar '\n' (pyStripList ocrText.data) with
  | [] => .error (.conversion "Failed to process image: No text detected in image")
  | first :: rest =>
    let headers := (pySplitWs first).map (fun w => String.mk w)
    let data := rest.map (fun ln => (pySplitWs ln).map (fun w => String.mk w))
    let width := (data.map (fun r => r.length)).foldl max 0
    if data ≠ [] ∧ width ≠ headers.length then
      .error (.conversion ("Failed to process image: " ++ toString headers.length ++
        " columns passed, passed data had " ++ toString width ++ " columns"))
    else
      .ok { headers := headers,
            rows := data.map (fun r => r.map some ++ List.replicate (width - r.length) none) }

/-- The success payload `convert_file` returns: table headers, rows
rendered with `str(...)` (`str(nan) == 'nan'`), and the download links of
the produced artifacts. -/
structure ConvSuccess where
  headers : List String
  rows : List (List String)
  files : List (String × String)
deriving DecidableEq, Repr

/-- Python `str` of a cell that may be NaN. -/
def pyStrOfCell : Option String → String
  | some s => s
  | none => "nan"

/-- The output formats `convert_file`'s export loop recognizes; any other
requested format falls through the `if/elif` chain and is skipped. -/
def supportedExport (f : String) : Bool := f = "xlsx" || f = "csv" || f = "xml"

/-- Keep the first occurrence of each element (Python dict-key insertion
order for `output_files`). -/
def dedupKeepFirst : List String → List String
  | [] => []
  | f :: rest => f :: (dedupKeepFirst rest).filter (fun g => g ≠ f)

/-- Assemble `convert_file`'s success dictionary from the merged frame. -/
def mkSuccess (fileId : String) (data : CFrame) (outputFormats : List String) : ConvSuccess :=
  { headers := data.headers,
    rows := data.rows.map (fun r => r.map pyStrOfCell),
    files := (dedupKeepFirst (outputFormats.filter supportedExport)).map
      (fun f => (f, "/download/" ++ fileId ++ "." ++ f)) }

/-- `convert_file` (lines 254-304), as a function of the file extension,
the raw tables a PDF parse would yield, the text an OCR pass would yield,
and the requested output formats.  Both extraction results are passed as
inputs so that the dispatch structure of the source — extension check
first, then extraction, then the export loop — is preserved: the
unsupported-extension branch uses neither. -/
def convert_file (ext fileId : String) (pdfTables : List RawTable)
    (ocrText : String) (outputFormats : List String) : Except ConvErr ConvSuccess :=
  let fileExtension := pyLower ext
  if fileExtension = ".pdf" then
    let dataframes := extract_tables_from_pdf pdfTables
    if dataframes = [] then .error (.conversion "No tables found in PDF")
    else .ok (mkSuccess fileId (pd_concat dataframes) outputFormats)
  else if fileExtension = ".png" ∨ fileExtension = ".jpg" ∨ fileExtension = ".jpeg" then
    match process_image_ocr ocrText with
    | .error e => .error e
    | .ok data => .ok (mkSuccess fileId data outputFormats)
  else
    .error (.http 400 "Unsupported file format")

/-! ## The canonical table model (lines 130-164)

`TableCell.value` is `Any` in the source; the values that reach the
exporters are strings or numbers, and every exporter renders them with
`str(...)`.  `TableRow.cells` is a Python dict from header name to cell,
modelled as an association list with first-key lookup. -/

inductive PyValue where
  | vStr (s : String)
  | vInt (n : Int)
deriving DecidableEq, Repr

/-- Python `str(...)` on a cell value. -/
def pyStr : PyValue → String
  | .vStr s => s
  | .vInt n => toString n

structure CellMetadata where
  error : Option Bool := none
  confidence : Option Rat := none
  status : Option String := none
  originalValue : Option PyValue := none
deriving DecidableEq, Repr

structure TableCell where
  value : PyValue
  metadata : CellMetadata
deriving DecidableEq, Repr

structure TableRow where
  cells : List (String × TableCell)
deriving DecidableEq, Repr

structure TableData where
  headers : List String
  rows : List TableRow
deriving DecidableEq, Repr

/-- The value part of a row, metadata erased. -/
def valueCells (row : TableRow) : List (String × PyValue) :=
  row.cells.map (fun p => (p.1, p.2.value))

/-- Every row carries a cell entry for every declared header — the
data-model invariant of `TableRow` (§3 of the spec). -/
def rowsComplete (T : TableData) : Prop :=
  ∀ row ∈ T.rows, ∀ h ∈ T.headers, (row.cells.lookup h).isSome = true

instance (T : TableData) : Decidable (rowsComplete T) := by
  unfold rowsComplete; infer_instance

/-- Left-to-right effectful map over `Except`, stopping at the first
error: the behaviour of a Python `for`/comprehension that may raise. -/
def mapE (g : α → Except String β) : List α → Except String (List β)
  | [] => .ok []
  | a :: l =>
    match g a with
    | .error e => .error e
    | .ok b => (mapE g l).map (fun bs => b :: bs)

/-- The per-row comprehension shared by all three exporters:
`{header: f(header, row.cells[header].value) for header in data.headers}`.
A missing key raises `KeyError(header)`, modelled as `Except.error`. -/
def mapHeaders (g : String → PyValue → β) (headers : List String) (row : TableRow) :
    Except String (List β) :=
  mapE (fun h =>
    match row.cells.lookup h with
    | some c => .ok (g h c.value)
    | none => .error h) headers

/-- `save_as_xlsx` (lines 399-407) up to the `pandas` writer: the
`DataFrame` it hands to `to_excel` — headers plus the per-row values, in
header order.  `to_excel` is a deterministic function of this frame, so
byte-level artifact equality follows from equality here. -/
def save_as_xlsx (data : TableData) : Except String (List String × List (List PyValue)) :=
  (mapE (mapHeaders (fun _ v => v) data.headers) data.rows).map
    (fun rs => (data.headers, rs))

/-- `save_as_csv` (lines 409-417) up to the `pandas` writer; it builds the
identical `DataFrame` and hands it to `to_csv`. -/
def save_as_csv (data : TableData) : Except String (List String × List (List PyValue)) :=
  (mapE (mapHeaders (fun _ v => v) data.headers) data.rows).map
    (fun rs => (data.headers, rs))

/-! ## `xml.etree.ElementTree` output (lines 419-440)

An element tree: tag, optional text, children (the source sets no
attributes and no tails).  `tree.write(path, encoding='utf-8',
xml_declaration=True)` emits the declaration `<?xml version='1.0'
encoding='utf-8'?>` and serializes each element as `<tag />` when empty or
`<tag>text children</tag>` otherwise, escaping `&`, `<`, `>` inside text —
but writing tag names verbatim, so the document is well-formed iff every
tag is a valid XML name. -/

inductive Xml where
  | elem (tag : String) (text : Option String) (children : List Xml)
deriving Repr


/-- XML 1.0 `NameStartChar`. -/
def isXmlNameStart (c : Char) : Bool :=
  let n := c.toNat
  c = ':' || c = '_' || ('A' ≤ c && c ≤ 'Z') || ('a' ≤ c && c ≤ 'z') ||
  (0xC0 ≤ n && n ≤ 0xD6) || (0xD8 ≤ n && n ≤ 0xF6) || (0xF8 ≤ n && n ≤ 0x2FF) ||
  (0x370 ≤ n && n ≤ 0x37D) || (0x37F ≤ n && n ≤ 0x1FFF) ||
  (0x200C ≤ n && n ≤ 0x200D) || (0x2070 ≤ n && n ≤ 0x218F) ||
  (0x2C00 ≤ n && n ≤ 0x2FEF) || (0x3001 ≤ n && n ≤ 0xD7FF) ||
  (0xF900 ≤ n && n ≤ 0xFDCF) || (0xFDF0 ≤ n && n ≤ 0xFFFD) ||
  (0x10000 ≤ n && n ≤ 0xEFFFF)

/-- XML 1.0 `NameChar`. -/
def isXmlNameChar (c : Char) : Bool :=
  let n := c.toNat
  isXmlNameStart c || c = '-' || c = '.' || ('0' ≤ c && c ≤ '9') ||
  n = 0xB7 || (0x300 ≤ n && n ≤ 0x36F) || (0x203F ≤ n && n ≤ 0x2040)

/-- XML 1.0 `Name` production. -/
def isXmlName (s : String) : Bool :=
  match s.data with
  | [] => false
  | c :: cs => isXmlNameStart c && cs.all isXmlNameChar

mutual
/-- All element tags in the tree are valid XML names — the condition under
which `ElementTree`'s writer output is well-formed XML. -/
def xmlTagsOk : Xml → Bool
  | .elem t _ cs => isXmlName t && xmlTagsOkList cs

def xmlTagsOkList : List Xml → Bool
  | [] => true
  | x :: xs => xmlTagsOk x && xmlTagsOkList xs
end

/-- `ElementTree._escape_cdata`: escape `&`, `<`, `>` in text content. -/
def escapeCdata (s : String) : String :=
  ⟨s.data.flatMap (fun c =>
    if c = '&' then "&amp;".data
    else if c = '<' then "&lt;".data
    else if c = '>' then "&gt;".data
    else [c])⟩

mutual
/-- The serializer of `ElementTree.write` for attribute-free, tail-free
elements. -/
def xmlSerialize : Xml → String
  | .elem t tx cs =>
    match tx, cs with
    | none, [] => "<" ++ t ++ " />"
    | _, _ =>
      "<" ++ t ++ ">" ++ escapeCdata ((tx.map id).getD "") ++
        xmlSerializeList cs ++ "</" ++ t ++ ">"

def xmlSerializeList : List Xml → String
  | [] => ""
  | x :: xs => xmlSerialize x ++ xmlSerializeList xs
end

/-- The declaration `tree.write(..., encoding='utf-8', xml_declaration=True)`
emits before the root element. -/
def xmlDecl : String := "<?xml version='1.0' encoding='utf-8'?>\n"

/-- The fixed ENVELOPE structure `save_as_xml` builds around the
per-row `TALLYMESSAGE` records. -/
def envelope (msgs : List Xml) : Xml :=
  .elem "ENVELOPE" none [
    .elem "HEADER" none [
      .elem "VERSION" (some "1") [],
      .elem "TALLYREQUEST" (some "Import Data") []],
    .elem "BODY" none [
      .elem "IMPORTDATA" none [
        .elem "REQUESTDESC" none [.elem "REPORTNAME" (some "Custom") []],
        .elem "REQUESTDATA" none msgs]]]

/-- `save_as_xml` (lines 419-440) up to the tree writer: for each row, in
order, one `TALLYMESSAGE` whose children are one leaf per header, in
header order, named by the header with text `str(row.cells[header].value)`. -/
def save_as_xml (data : TableData) : Except String Xml :=
  (mapE (fun row =>
      (mapHeaders (fun h v => Xml.elem h (some (pyStr v)) []) data.headers row).map
        (fun leaves => Xml.elem "TALLYMESSAGE" none leaves))
    data.rows).map envelope

/-- The bytes `save_as_xml` writes: declaration plus serialized tree. -/
def save_as_xml_bytes (data : TableData) : Except String String :=
  (save_as_xml data).map (fun x => xmlDecl ++ xmlSerialize x)

/-- The `TALLYMESSAGE` record the exporter emits for one (complete) row. -/
def tallyMessageOf (headers : List String) (row : TableRow) : Xml :=
  .elem "TALLYMESSAGE" none (headers.map (fun h =>
    .elem h (some (pyStr (((row.cells.lookup h).map TableCell.value).getD (.vStr "")))) []))

/-! ## Concrete tables used by witnesses and counterexamples -/

/-- A table whose single header contains a space — not an XML name. -/
def c3BadTable : TableData :=
  { headers := ["a b"],
    rows := [{ cells := [("a b", { value := .vStr "x", metadata := {} })] }] }

/-- A 2-column, 3-row table (the spec's end-to-end example shape). -/
def c3DemoTable : TableData :=
  { headers := ["DATE", "AMOUNT"],
    rows := [
      { cells := [("DATE", { value := .vStr "2024-01-15", metadata := {} }),
                  ("AMOUNT", { value := .vInt 100, metadata := {} })] },
      { cells := [("DATE", { value := .vStr "2024-01-16", metadata := {} }),
                  ("AMOUNT", { value := .vInt 250, metadata := {} })] },
      { cells := [("DATE", { value := .vStr "2024-01-17", metadata := {} }),
                  ("AMOUNT", { value := .vStr "17.5", metadata := {} })] }] }

/-- Two tables with identical headers and per-cell values, differing only
in per-cell metadata. -/
def c4TableA : TableData :=
  { headers := ["H1", "H2"],
    rows := [{ cells := [
      ("H1", { value := .vStr "v1", metadata := {} }),
      ("H2", { value := .vInt 7, metadata := {} })] }] }

def c4TableB : TableData :=
  { headers := ["H1", "H2"],
    rows := [{ cells := [
      ("H1", { value := .vStr "v1",
               metadata := { error := some true, confidence := some (1 / 2 : Rat),
                             status := some "error",
                             originalValue := some (.vStr "old") } }),
      ("H2", { value := .vInt 7,
               metadata := { error := some false, status := some "ok" } })] }] }

/-- A table whose only row omits the declared header `"B"`. -/
def c10BadTable : TableData :=
  { headers := ["A", "B"],
    rows := [{ cells := [("A", { value := .vStr "x", metadata := {} })] }] }

/-! ## Locating one cell's findings inside `validate_table`'s output

`validate_table` tags every finding with the row and column index of the
cell that produced it, and the enumeration indices are distinct, so
filtering the flat result on `(row, column)` recovers exactly the finding
list of that one cell. -/

theorem mem_cellFindings {f : Finding} {r c : Nat} {cell : String}
    (h : f ∈ cellFindings r c cell) : f.row = r ∧ f.column = c := by
  unfold cellFindings cellFindingsCore at h
  rcases List.mem_append.1 h with h | h
  · rcases List.mem_append.1 h with h | h
    · rcases List.mem_append.1 h with h | h <;> (split at h <;> simp_all)
    · split at h <;> simp_all
  · split at h <;> simp_all

theorem filter_cellFindings_self (r c : Nat) (cell : String) :
    (cellFindings r c cell).filter (fun f => f.row == r && f.column == c) =
      cellFindings r c cell :=
  List.filter_eq_self.2 (fun f hf => by
    have hm := mem_cellFindings hf
    simp [hm.1, hm.2])

theorem filter_cellFindings_ne {r' c' r c : Nat} (cell : String)
    (h : ¬(r' = r ∧ c' = c)) :
    (cellFindings r' c' cell).filter (fun f => f.row == r && f.column == c) = [] :=
  List.filter_eq_nil_iff.2 (fun f hf => by
    have hm := mem_cellFindings hf
    simp only [hm.1, hm.2, Bool.and_eq_true, beq_iff_eq]
    tauto)

theorem mem_rowFindings {f : Finding} {r : Nat} :
    ∀ {c0 : Nat} {cells : List String},
      f ∈ rowFindings r c0 cells → f.row = r ∧ c0 ≤ f.column := by
  intro c0 cells
  induction cells generalizing c0 with
  | nil => intro h; simp [rowFindings] at h
  | cons x xs ih =>
    intro h
    rcases List.mem_append.1 h with h | h
    · have hm := mem_cellFindings h
      exact ⟨hm.1, hm.2 ▸ Nat.le_refl _⟩
    · have hm := ih h
      exact ⟨hm.1, Nat.le_trans (Nat.le_succ c0) hm.2⟩

theorem filter_rowFindings_low {r c : Nat} :
    ∀ {c0 : Nat} (cells : List String), c < c0 →
      (rowFindings r c0 cells).filter (fun f => f.row == r && f.column == c) = [] := by
  intro c0 cells hc
  refine List.filter_eq_nil_iff.2 (fun f hf => ?_)
  have hm := mem_rowFindings hf
  simp only [hm.1, Bool.and_eq_true, beq_iff_eq]
  rintro ⟨-, h2⟩
  omega

theorem filter_rowFindings (r : Nat) :
    ∀ (c0 k : Nat) (cells : List String) (cell : String),
      cells[k]? = some cell →
      (rowFindings r c0 cells).filter (fun f => f.row == r && f.column == (c0 + k)) =
        cellFindings r (c0 + k) cell := by
  intro c0 k cells
  induction cells generalizing c0 k with
  | nil => intro cell h; simp at h
  | cons x xs ih =>
    intro cell h
    cases k with
    | zero =>
      simp only [List.getElem?_cons_zero, Option.some.injEq] at h
      subst h
      rw [rowFindings, List.filter_append, Nat.add_zero, filter_cellFindings_self,
        filter_rowFindings_low xs (Nat.lt_succ_self c0), List.append_nil]
    | succ k =>
      simp only [List.getElem?_cons_succ] at h
      rw [rowFindings, List.filter_append,
        filter_cellFindings_ne x (by omega),
        List.nil_append, show c0 + (k + 1) = (c0 + 1) + k by omega]
      exact ih (c0 + 1) k cell h

theorem mem_tableFindings {f : Finding} :
    ∀ {r0 : Nat} {data : List (List String)},
      f ∈ tableFindings r0 data → r0 ≤ f.row := by
  intro r0 data
  induction data generalizing r0 with
  | nil => intro h; simp [tableFindings] at h
  | cons row rest ih =>
    intro h
    rcases List.mem_append.1 h with h | h
    · split at h
      · simp at h
      · exact (mem_rowFindings h).1 ▸ Nat.le_refl _
    · exact Nat.le_trans (Nat.le_succ r0) (ih h)

theorem filter_tableFindings (c : Nat) :
    ∀ (r0 i : Nat) (data : List (List String)) (row : List String) (cell : String),
      data[i]? = some row → row[c]? = some cell → r0 + i ≠ 0 →
      (tableFindings r0 data).filter
          (fun f => f.row == (r0 + i) && f.column == c) =
        cellFindings (r0 + i) c cell := by
  intro r0 i data
  induction data generalizing r0 i with
  | nil => intro row cell h _ _; simp at h
  | cons first rest ih =>
    intro row cell hrow hcell hne
    cases i with
    | zero =>
      simp only [List.getElem?_cons_zero, Option.some.injEq] at hrow
      subst hrow
      rw [tableFindings, List.filter_append]
      have hr0 : r0 ≠ 0 := by omega
      rw [if_neg hr0]
      have htail : (tableFindings (r0 + 1) rest).filter
          (fun f => f.row == (r0 + 0) && f.column == c) = [] := by
        refine List.filter_eq_nil_iff.2 (fun f hf => ?_)
        have h0 := mem_tableFindings hf
        intro hcontra
        rw [Bool.and_eq_true, beq_iff_eq, beq_iff_eq] at hcontra
        omega
      rw [htail, List.append_nil, Nat.add_zero]
      have := filter_rowFindings r0 0 c first cell hcell
      simpa using this
    | succ k =>
      simp only [List.getElem?_cons_succ] at hrow
      rw [tableFindings, List.filter_append]
      have hhead : ((if r0 = 0 then [] else rowFindings r0 0 first).filter
          (fun f => f.row == (r0 + (k + 1)) && f.column == c)) = [] := by
        split
        · simp
        · refine List.filter_eq_nil_iff.2 (fun f hf => ?_)
          have h1 := (mem_rowFindings hf).1
          intro hcontra
          rw [Bool.and_eq_true, beq_iff_eq, beq_iff_eq] at hcontra
          omega
      rw [hhead, List.nil_append, show r0 + (k + 1) = (r0 + 1) + k by omega]
      exact ih (r0 + 1) k row cell hrow hcell (by omega)

/-- Master lemma: the findings `validate_table` reports for the cell at a
non-header position `(r, c)` are exactly `cellFindings r c cell`. -/
theorem validate_table_filter_at (data : List (List String)) (r c : Nat)
    (row : List String) (cell : String) (hr : r ≠ 0)
    (hrow : data[r]? = some row) (hcell : row[c]? = some cell) :
    (validate_table data).filter (fun f => f.row == r && f.column == c) =
      cellFindings r c cell := by
  have := filter_tableFindings c 0 r data row cell hrow hcell (by omega)
  simpa [validate_table] using this

/-! ## Whitespace-only cells (for the mandatory/date interaction) -/

theorem all_isPySpace_of_pyStrip_eq_empty {s : String} (h : pyStrip s = "") :
    ∀ ch ∈ s.data, isPySpace ch = true := by
  intro ch hch
  have hl : pyStripList s.data = [] := congrArg String.data h
  unfold pyStripList at hl
  rw [List.reverse_eq_nil_iff, List.dropWhile_eq_nil_iff] at hl
  have hdrop : ∀ x ∈ (s.data.dropWhile isPySpace), isPySpace x = true := by
    intro x hx
    exact hl x (List.mem_reverse.2 hx)
  have hsplit := List.takeWhile_append_dropWhile isPySpace s.data
  rw [← hsplit] at hch
  rcases List.mem_append.1 hch with hch | hch
  · exact List.mem_takeWhile_imp hch
  · exact hdrop ch hch

theorem hasSubstr_head_mem {a : Char} {pat l : List Char}
    (h : hasSubstr (a :: pat) l = true) : a ∈ l := by
  induction l with
  | nil => simp [hasSubstr, List.isEmpty] at h
  | cons c rest ih =>
    rw [hasSubstr, Bool.or_eq_true] at h
    rcases h with h | h
    · rw [List.isPrefixOf, Bool.and_eq_true, beq_iff_eq] at h
      exact h.1 ▸ List.mem_cons_self _ _
    · exact List.mem_cons_of_mem _ (ih h)

theorem hasConfusable_eq_false_of_spaces {cell : String}
    (h : ∀ ch ∈ cell.data, isPySpace ch = true) : hasConfusable cell = false := by
  unfold hasConfusable pyIn
  have hO : hasSubstr "O0".data cell.data = false := by
    by_contra hx
    rw [Bool.not_eq_false] at hx
    have hm : ('O' : Char) ∈ cell.data := hasSubstr_head_mem hx
    have := h 'O' hm
    exact absurd this (by decide)
  have hl : hasSubstr "l1".data cell.data = false := by
    by_contra hx
    rw [Bool.not_eq_false] at hx
    have hm : ('l' : Char) ∈ cell.data := hasSubstr_head_mem hx
    have := h 'l' hm
    exact absurd this (by decide)
  have hS : hasSubstr "S5".data cell.data = false := by
    by_contra hx
    rw [Bool.not_eq_false] at hx
    have hm : ('S' : Char) ∈ cell.data := hasSubstr_head_mem hx
    have := h 'S' hm
    exact absurd this (by decide)
  rw [hO, hl, hS]
  rfl

/-! ## Lemmas about the shared export comprehension -/

/-- `Except.isOk` for our error monad. -/
def isOkE : Except String α → Bool
  | .ok _ => true
  | .error _ => false

theorem isOkE_map {e : Except String α} {f : α → β} : isOkE (e.map f) = isOkE e := by
  cases e <;> rfl

theorem mapE_congr {g1 g2 : α → Except String β} :
    ∀ (l : List α), (∀ a ∈ l, g1 a = g2 a) → mapE g1 l = mapE g2 l := by
  intro l h
  induction l with
  | nil => rfl
  | cons a as ih =>
    rw [mapE, mapE, h a (List.mem_cons_self a as),
      ih (fun b hb => h b (List.mem_cons_of_mem a hb))]

theorem mapE_isOk_iff {g : α → Except String β} :
    ∀ (l : List α), isOkE (mapE g l) = true ↔ ∀ a ∈ l, isOkE (g a) = true := by
  intro l
  induction l with
  | nil => simp [mapE, isOkE]
  | cons a as ih =>
    rw [mapE]
    cases hg : g a with
    | error e =>
      constructor
      · intro hfalse
        simp [isOkE] at hfalse
      · intro hall
        have := hall a (List.mem_cons_self a as)
        rw [hg] at this
        simp [isOkE] at this
    | ok b =>
      rw [isOkE_map]
      constructor
      · intro hok x hx
        rcases List.mem_cons.1 hx with rfl | hx
        · rw [hg]; rfl
        · exact (ih.1 hok) x hx
      · intro hall
        exact ih.2 (fun x hx => hall x (List.mem_cons_of_mem a hx))

theorem mapE_ok_of_all {g : α → Except String β} {f : α → β} :
    ∀ (l : List α), (∀ a ∈ l, g a = .ok (f a)) → mapE g l = .ok (l.map f) := by
  intro l h
  induction l with
  | nil => rfl
  | cons a as ih =>
    rw [mapE, h a (List.mem_cons_self a as),
      ih (fun b hb => h b (List.mem_cons_of_mem a hb))]
    rfl

theorem forall₂_of_map_eq {f : α → γ} {g : β → γ} :
    ∀ {l1 : List α} {l2 : List β}, l1.map f = l2.map g →
      List.Forall₂ (fun a b => f a = g b) l1 l2 := by
  intro l1
  induction l1 with
  | nil =>
    intro l2 h
    cases l2 with
    | nil => constructor
    | cons b bs => simp at h
  | cons a as ih =>
    intro l2 h
    cases l2 with
    | nil => simp at h
    | cons b bs =>
      simp only [List.map_cons, List.cons.injEq] at h
      exact List.Forall₂.cons h.1 (ih h.2)

theorem mapE_congr_forall₂ {γ : Type} {g1 : α → Except String γ} {g2 : β → Except String γ}
    {R : α → β → Prop} (hg : ∀ a b, R a b → g1 a = g2 b) :
    ∀ {l1 : List α} {l2 : List β}, List.Forall₂ R l1 l2 → mapE g1 l1 = mapE g2 l2 := by
  intro l1 l2 h
  induction h with
  | nil => rfl
  | cons hab _ ih => rw [mapE, mapE, hg _ _ hab, ih]

theorem lookup_value_eq {l1 l2 : List (String × TableCell)}
    (h : l1.map (fun p => (p.1, p.2.value)) = l2.map (fun p => (p.1, p.2.value)))
    (k : String) :
    (l1.lookup k).map TableCell.value = (l2.lookup k).map TableCell.value := by
  induction l1 generalizing l2 with
  | nil =>
    cases l2 with
    | nil => rfl
    | cons q qs => simp at h
  | cons p ps ih =>
    cases l2 with
    | nil => simp at h
    | cons q qs =>
      obtain ⟨k1, v1⟩ := p
      obtain ⟨k2, v2⟩ := q
      simp only [List.map_cons, List.cons.injEq, Prod.mk.injEq] at h
      obtain ⟨⟨hk, hv⟩, htail⟩ := h
      rw [List.lookup, List.lookup, hk]
      split
      · simp [hv]
      · exact ih htail

theorem mapHeaders_value_congr (g : String → PyValue → β) (headers : List String)
    {r1 r2 : TableRow} (h : valueCells r1 = valueCells r2) :
    mapHeaders g headers r1 = mapHeaders g headers r2 := by
  unfold mapHeaders
  apply mapE_congr
  intro h' _
  have hlk := lookup_value_eq h h'
  cases e1 : r1.cells.lookup h' with
  | none =>
    cases e2 : r2.cells.lookup h' with
    | none => rfl
    | some c2 => rw [e1, e2] at hlk; simp at hlk
  | some c1 =>
    cases e2 : r2.cells.lookup h' with
    | none => rw [e1, e2] at hlk; simp at hlk
    | some c2 =>
      rw [e1, e2] at hlk
      simp at hlk
      simp [hlk]

theorem mapHeaders_isOk_iff (g : String → PyValue → β) (headers : List String)
    (row : TableRow) :
    isOkE (mapHeaders g headers row) = true ↔
      ∀ h ∈ headers, (row.cells.lookup h).isSome = true := by
  unfold mapHeaders
  rw [mapE_isOk_iff]
  constructor
  · intro hall h hh
    have := hall h hh
    cases e : row.cells.lookup h with
    | none => rw [e] at this; simp [isOkE] at this
    | some c => rfl
  · intro hall h hh
    have := hall h hh
    cases e : row.cells.lookup h with
    | none => rw [e] at this; simp at this
    | some c => rfl

theorem mapHeaders_complete (g : String → PyValue → β) (headers : List String)
    (row : TableRow) (h : ∀ h' ∈ headers, (row.cells.lookup h').isSome = true) :
    mapHeaders g headers row =
      .ok (headers.map (fun h' =>
        g h' (((row.cells.lookup h').map TableCell.value).getD (.vStr "")))) := by
  unfold mapHeaders
  apply mapE_ok_of_all
  intro h' hh
  have := h h' hh
  cases e : row.cells.lookup h' with
  | none => rw [e] at this; simp at this
  | some c => rfl

/-! ## Lemmas about `pd_concat` on frames sharing one header row -/

theorem labelIndex_get {l : List String} (hnd : l.Nodup) :
    ∀ {i : Nat} {a : String}, l[i]? = some a → labelIndex a l = some i := by
  induction l with
  | nil => intro i a h; simp at h
  | cons b bs ih =>
    intro i a h
    cases i with
    | zero =>
      simp only [List.getElem?_cons_zero, Option.some.injEq] at h
      subst h
      simp [labelIndex]
    | succ i =>
      simp only [List.getElem?_cons_succ] at h
      have hmem : a ∈ bs := by
        rcases Nat.lt_or_ge i bs.length with hlt | hge
        · rw [List.getElem?_eq_getElem hlt] at h
          exact (Option.some.injEq _ _ ▸ h) ▸ List.getElem_mem hlt
        · rw [List.getElem?_eq_none hge] at h; simp at h
      have hb : b ≠ a := fun hba => (List.nodup_cons.1 hnd).1 (hba ▸ hmem)
      rw [labelIndex, if_neg hb, ih (List.nodup_cons.1 hnd).2 h]
      rfl

theorem alignRow_self {hdr : List String} (hnd : hdr.Nodup) {r : List String}
    (hlen : r.length = hdr.length) : alignRow hdr hdr r = r.map some := by
  unfold alignRow
  apply List.ext_getElem?
  intro i
  rw [List.getElem?_map, List.getElem?_map]
  cases hi : hdr[i]? with
  | none =>
    have hge : hdr.length ≤ i := by
      rcases Nat.lt_or_ge i hdr.length with hlt | hge
      · rw [List.getElem?_eq_getElem hlt] at hi; simp at hi
      · exact hge
    rw [List.getElem?_eq_none (hlen ▸ hge)]
    rfl
  | some a =>
    have hlt : i < hdr.length := by
      rcases Nat.lt_or_ge i hdr.length with hlt | hge
      · exact hlt
      · rw [List.getElem?_eq_none hge] at hi; simp at hi
    have hr : r[i]? = some r[i] := List.getElem?_eq_getElem (by omega)
    simp [labelIndex_get hnd hi, hr, Option.bind]

theorem foldl_union_fixed {hdr : List String} :
    ∀ (fs : List Frame), (∀ f ∈ fs, f.headers = hdr) →
      fs.foldl (fun acc f => acc ++ f.headers.filter (fun h => !acc.contains h)) hdr =
        hdr := by
  intro fs
  induction fs with
  | nil => intro _; rfl
  | cons f rest ih =>
    intro hall
    rw [List.foldl_cons]
    have hf : f.headers = hdr := hall f (List.mem_cons_self f rest)
    have hfilter : hdr.filter (fun h => !hdr.contains h) = [] :=
      List.filter_eq_nil_iff.2 (fun a ha => by simp [ha])
    rw [hf, hfilter, List.append_nil]
    exact ih (fun g hg => hall g (List.mem_cons_of_mem _ hg))

theorem unionColumns_const {hdr : List String} (fs : List Frame)
    (hne : fs ≠ []) (hall : ∀ f ∈ fs, f.headers = hdr) :
    unionColumns fs = hdr := by
  cases fs with
  | nil => exact absurd rfl hne
  | cons f rest =>
    unfold unionColumns
    rw [List.foldl_cons]
    have hf : f.headers = hdr := hall f (List.mem_cons_self f rest)
    have hhead : (([] : List String) ++ f.headers.filter
        (fun h => !([] : List String).contains h)) = hdr := by
      rw [List.nil_append, hf]
      exact List.filter_eq_self.2 (fun a _ => by simp)
    rw [hhead]
    exact foldl_union_fixed rest (fun g hg => hall g (List.mem_cons_of_mem _ hg))

/-! ## Lemmas about the ENVELOPE tree -/

theorem xmlTagsOk_envelope (msgs : List Xml) :
    xmlTagsOk (envelope msgs) = xmlTagsOkList msgs := by
  cases h : xmlTagsOkList msgs <;>
    (simp only [envelope, xmlTagsOk, xmlTagsOkList, h]; decide)

theorem xmlTagsOkList_leaves {headers : List String}
    (hn : ∀ h ∈ headers, isXmlName h = true) (row : TableRow) :
    xmlTagsOkList (headers.map (fun h =>
      Xml.elem h
        (some (pyStr (((row.cells.lookup h).map TableCell.value).getD (.vStr "")))) [])) =
      true := by
  induction headers with
  | nil => rfl
  | cons h hs ih =>
    rw [List.map_cons, xmlTagsOkList, xmlTagsOk]
    rw [hn h (List.mem_cons_self h hs),
      ih (fun g hg => hn g (List.mem_cons_of_mem _ hg))]
    rfl

theorem xmlTagsOkList_messages {headers : List String}
    (hn : ∀ h ∈ headers, isXmlName h = true) :
    ∀ (rows : List TableRow),
      xmlTagsOkList (rows.map (tallyMessageOf headers)) = true := by
  intro rows
  induction rows with
  | nil => rfl
  | cons row rest ih =>
    rw [List.map_cons, xmlTagsOkList, ih]
    have hmsg : xmlTagsOk (tallyMessageOf headers row) = true := by
      rw [tallyMessageOf, xmlTagsOk, xmlTagsOkList_leaves hn row]
      rfl
    rw [hmsg]
    rfl

theorem save_as_xml_complete (T : TableData) (hc : rowsComplete T) :
    save_as_xml T = .ok (envelope (T.rows.map (tallyMessageOf T.headers))) := by
  unfold save_as_xml
  have hall : ∀ row ∈ T.rows,
      ((mapHeaders (fun h v => Xml.elem h (some (pyStr v)) []) T.headers row).map
        (fun leaves => Xml.elem "TALLYMESSAGE" none leaves)) =
      .ok (tallyMessageOf T.headers row) := by
    intro row hrow
    rw [mapHeaders_complete _ _ _ (hc row hrow)]
    rfl
  rw [mapE_ok_of_all T.rows hall]
  rfl

/-! ## Evaluating one cell's findings per rule class -/

theorem cellFindings_numeric_filter (r c : Nat) (cell : String) (hc : c = 3 ∨ c = 4) :
    (cellFindings r c cell).filter
        (fun f => f.severity == "critical" && f.message == "Value must be numeric") =
      (if pyFloatOk (pyStrip (removeCommas cell)) then [] else
        [{ row := r, column := c, type := "error", severity := "critical",
           message := "Value must be numeric" }]) := by
  rcases hc with rfl | rfl <;>
    (cases hf : pyFloatOk (pyStrip (removeCommas cell)) <;>
      cases ho : hasConfusable cell <;>
        simp [cellFindings, cellFindingsCore, hf, ho, List.filter])

theorem cellFindings_date_filter (r : Nat) (cell : String) :
    (cellFindings r 2 cell).filter
        (fun f => f.severity == "warning" &&
          f.message == "Invalid date format (should be YYYY-MM-DD)") =
      (if strptimeYmd (pyStrip cell) then [] else
        [{ row := r, column := 2, type := "error", severity := "warning",
           message := "Invalid date format (should be YYYY-MM-DD)" }]) := by
  by_cases hm : pyStrip cell = ""
  · cases ho : hasConfusable cell <;>
      simp [cellFindings, cellFindingsCore, hm, ho, List.filter,
        show strptimeYmd "" = false from by decide]
  · cases hd : strptimeYmd (pyStrip cell) <;>
      cases ho : hasConfusable cell <;>
        simp [cellFindings, cellFindingsCore, hm, hd, ho, List.filter]

theorem cellFindings_empty_cell (r : Nat) (cell : String) (h : pyStrip cell = "") :
    cellFindings r 2 cell =
      [{ row := r, column := 2, type := "error", severity := "critical",
         message := "Mandatory field cannot be empty" },
       { row := r, column := 2, type := "error", severity := "warning",
         message := "Invalid date format (should be YYYY-MM-DD)" }] := by
  have hocr : hasConfusable cell = false :=
    hasConfusable_eq_false_of_spaces (all_isPySpace_of_pyStrip_eq_empty h)
  simp [cellFindings, cellFindingsCore, h, hocr,
    show strptimeYmd "" = false from by decide]

/-! ## Claims -/

/-- C1: the claim says an image whose OCR pass recovers zero lines of text
always raises `ConversionError` and never converts to an empty-table
success.  The code's guard `if not lines` is unreachable — `''.strip().split('\n')`
is `['']`, never `[]` — so an empty OCR text block flows through and
`convert_file` returns a *success* payload with zero headers and zero rows
(the PDF half of the claim does hold: zero extracted tables raise
`ConversionError("No tables found in PDF")`).  This theorem evaluates the
code at the failing input. -/
theorem c1_empty_ocr_converts_to_empty_success :
    convert_file ".png" "f" [] "" ["xlsx", "csv", "xml"] =
      .ok { headers := [], rows := [],
            files := [("xlsx", "/download/f.xlsx"), ("csv", "/download/f.csv"),
                      ("xml", "/download/f.xml")] } ∧
    convert_file ".pdf" "f" [] "" ["xlsx", "csv", "xml"] =
      .error (.conversion "No tables found in PDF") := by
  exact ⟨rfl, rfl⟩

/-- C2 counterexample: the claim predicts that for two extracted raw
tables only the very first row (the first table's header row) is dropped,
so the second table's first row survives as data; the code instead drops
*each* table's first row (it becomes that frame's column labels), so the
claimed normalization and the code's normalization disagree: 2 data rows
versus the claimed 3. -/
theorem c2_counterexample :
    pd_concat (extract_tables_from_pdf
        [[["A", "B"], ["1", "2"]], [["A", "B"], ["3", "4"]]]) ≠
      normalize_claimed [[["A", "B"], ["1", "2"]], [["A", "B"], ["3", "4"]]] ∧
    (pd_concat (extract_tables_from_pdf
        [[["A", "B"], ["1", "2"]], [["A", "B"], ["3", "4"]]])).rows.length = 2 ∧
    (normalize_claimed
        [[["A", "B"], ["1", "2"]], [["A", "B"], ["3", "4"]]]).rows.length = 3 := by
  exact ⟨by decide, rfl, rfl⟩

/-- C2 (amended): for k ≥ 1 extracted raw tables that are non-empty and
share one duplicate-free header row, with every data row as wide as the
header, normalization produces one table whose headers equal the first raw
table's first row and whose row sequence is, for *each* raw table, the
rows after that table's own first row, concatenated in page/detection
order and mapped to headers by position. -/
theorem c2_amended_concat (tables : List RawTable) (hdr : List String)
    (hne : tables ≠ [])
    (htne : ∀ t ∈ tables, t ≠ [])
    (hhead : ∀ t ∈ tables, t.headD [] = hdr)
    (hnd : hdr.Nodup)
    (hwidth : ∀ t ∈ tables, ∀ r ∈ t.tail, r.length = hdr.length) :
    pd_concat (extract_tables_from_pdf tables) =
      { headers := hdr,
        rows := (tables.map (fun t => t.tail.map (fun r => r.map some))).flatten } := by
  have hfil : tables.filter (fun t => t ≠ []) = tables :=
    List.filter_eq_self.2 (fun t ht => decide_eq_true (htne t ht))
  have hfh : ∀ f ∈ tables.map tableToFrame, f.headers = hdr := by
    intro f hf
    obtain ⟨t, ht, rfl⟩ := List.mem_map.1 hf
    exact hhead t ht
  have hfne : tables.map tableToFrame ≠ [] := by
    cases tables with
    | nil => exact absurd rfl hne
    | cons t ts => simp
  have hcols : unionColumns (tables.map tableToFrame) = hdr :=
    unionColumns_const _ hfne hfh
  unfold pd_concat extract_tables_from_pdf
  rw [hfil]
  simp only [hcols, List.map_map]
  congr 1
  apply congrArg List.flatten
  apply List.map_congr_left
  intro t ht
  show (tableToFrame t).rows.map (alignRow hdr (tableToFrame t).headers) = _
  rw [show (tableToFrame t).headers = hdr from hhead t ht]
  apply List.map_congr_left
  intro r hr
  exact alignRow_self hnd (hwidth t ht r hr)

/-- C2 witness: the amended statement at the counterexample's input. -/
theorem c2_amended_witness :
    pd_concat (extract_tables_from_pdf
        [[["A", "B"], ["1", "2"]], [["A", "B"], ["3", "4"]]]) =
      { headers := ["A", "B"],
        rows := [[some "1", some "2"], [some "3", some "4"]] } := by
  have h := c2_amended_concat [[["A", "B"], ["1", "2"]], [["A", "B"], ["3", "4"]]]
    ["A", "B"] (by decide) (by decide) (by decide) (by decide) (by decide)
  exact h.trans (by decide)

/-- C3 counterexample: the claim asserts well-formed XML output for
*every* table, but `ElementTree` writes tag names verbatim, so a header
that is not an XML name (here `"a b"`, containing a space) yields a
document no XML parser accepts — even though the table satisfies the
row-completeness invariant. -/
theorem c3_counterexample :
    rowsComplete c3BadTable ∧
    (save_as_xml c3BadTable).map xmlTagsOk = .ok false := by
  exact ⟨by decide, rfl⟩

/-- C3 (amended): for every `TableData` whose rows carry a cell for every
header and whose headers are all valid XML names, the accounting-XML
export succeeds and produces the fixed UTF-8-declared ENVELOPE document
whose REQUESTDATA block holds exactly one TALLYMESSAGE per row, in row
order, each containing one leaf per header, named after the header, in
header order, with the cell's value rendered by `str(...)` as text. -/
theorem c3_amended_xml_export (T : TableData) (hc : rowsComplete T)
    (hn : ∀ h ∈ T.headers, isXmlName h = true) :
    save_as_xml T = .ok (envelope (T.rows.map (tallyMessageOf T.headers))) ∧
    (T.rows.map (tallyMessageOf T.headers)).length = T.rows.length ∧
    (∀ row ∈ T.rows, tallyMessageOf T.headers row =
      Xml.elem "TALLYMESSAGE" none (T.headers.map (fun h =>
        Xml.elem h
          (some (pyStr (((row.cells.lookup h).map TableCell.value).getD (.vStr ""))))
          []))) ∧
    xmlTagsOk (envelope (T.rows.map (tallyMessageOf T.headers))) = true ∧
    save_as_xml_bytes T =
      .ok (xmlDecl ++ xmlSerialize (envelope (T.rows.map (tallyMessageOf T.headers)))) := by
  have h1 := save_as_xml_complete T hc
  refine ⟨h1, List.length_map _ _, fun row _ => rfl, ?_, ?_⟩
  · rw [xmlTagsOk_envelope]
    exact xmlTagsOkList_messages hn T.rows
  · unfold save_as_xml_bytes
    rw [h1]
    rfl

/-- C3 witness: a 2-column, 3-row table exports to an envelope whose
REQUESTDATA holds exactly 3 TALLYMESSAGE records of 2 leaves each. -/
theorem c3_amended_witness :
    save_as_xml c3DemoTable =
      .ok (envelope [
        .elem "TALLYMESSAGE" none [
          .elem "DATE" (some "2024-01-15") [], .elem "AMOUNT" (some "100") []],
        .elem "TALLYMESSAGE" none [
          .elem "DATE" (some "2024-01-16") [], .elem "AMOUNT" (some "250") []],
        .elem "TALLYMESSAGE" none [
          .elem "DATE" (some "2024-01-17") [], .elem "AMOUNT" (some "17.5") []]]) ∧
    xmlTagsOk (envelope (c3DemoTable.rows.map (tallyMessageOf c3DemoTable.headers))) =
      true := by
  have h := c3_amended_xml_export c3DemoTable (by decide) (by decide)
  exact ⟨h.1, h.2.2.2.1⟩

/-- C4: metadata-independence of export.  Any two tables with identical
headers and identical per-cell values — metadata arbitrary — produce
identical export artifacts: the same `DataFrame` handed to the xlsx and
csv writers, the same element tree, and byte-identical serialized XML.
Export reads only `value` and never consults `CellMetadata`. -/
theorem c4_export_ignores_metadata (T1 T2 : TableData)
    (hh : T1.headers = T2.headers)
    (hv : T1.rows.map valueCells = T2.rows.map valueCells) :
    save_as_xlsx T1 = save_as_xlsx T2 ∧
    save_as_csv T1 = save_as_csv T2 ∧
    save_as_xml T1 = save_as_xml T2 ∧
    save_as_xml_bytes T1 = save_as_xml_bytes T2 := by
  have hcore : ∀ (β : Type) (g : String → PyValue → β),
      mapE (mapHeaders g T1.headers) T1.rows = mapE (mapHeaders g T2.headers) T2.rows := by
    intro β g
    rw [hh]
    exact mapE_congr_forall₂
      (fun r1 r2 hr => mapHeaders_value_congr g T2.headers hr)
      (forall₂_of_map_eq hv)
  have hxml : save_as_xml T1 = save_as_xml T2 := by
    unfold save_as_xml
    rw [hh]
    apply congrArg (Except.map envelope)
    apply mapE_congr_forall₂
      (fun r1 r2 (hr : valueCells r1 = valueCells r2) =>
        congrArg (Except.map _) (mapHeaders_value_congr _ T2.headers hr))
      (forall₂_of_map_eq hv)
  refine ⟨?_, ?_, hxml, ?_⟩
  · unfold save_as_xlsx
    rw [hcore _ _, hh]
  · unfold save_as_csv
    rw [hcore _ _, hh]
  · unfold save_as_xml_bytes
    rw [hxml]

/-- C4 witness: two concrete tables differing only in metadata export
identically. -/
theorem c4_witness :
    save_as_xlsx c4TableA = save_as_xlsx c4TableB ∧
    save_as_csv c4TableA = save_as_csv c4TableB ∧
    save_as_xml c4TableA = save_as_xml c4TableB ∧
    save_as_xml_bytes c4TableA = save_as_xml_bytes c4TableB := by
  exact c4_export_ignores_metadata c4TableA c4TableB rfl rfl

theorem mem_dedupKeepFirst {a : String} :
    ∀ {l : List String}, a ∈ dedupKeepFirst l → a ∈ l := by
  intro l
  induction l with
  | nil => intro h; simp [dedupKeepFirst] at h
  | cons b bs ih =>
    intro h
    rw [dedupKeepFirst] at h
    rcases List.mem_cons.1 h with rfl | h
    · exact List.mem_cons_self _ _
    · exact List.mem_cons_of_mem _ (ih (List.mem_of_mem_filter h))

theorem lookup_mapped_keys_none {path : String → String} {f : String} :
    ∀ {l : List String}, (∀ g ∈ l, g ≠ f) →
      (l.map (fun g => (g, path g))).lookup f = none := by
  intro l
  induction l with
  | nil => intro _; rfl
  | cons g gs ih =>
    intro h
    rw [List.map_cons, List.lookup]
    have hbeq : (f == g) = false :=
      beq_eq_false_iff_ne.2 (fun hfg => h g (List.mem_cons_self g gs) hfg.symm)
    rw [hbeq]
    exact ih (fun x hx => h x (List.mem_cons_of_mem _ hx))

theorem mkSuccess_files_lookup (fileId : String) (data : CFrame)
    (formats : List String) (f : String) (hf : supportedExport f = false) :
    (mkSuccess fileId data formats).files.lookup f = none := by
  unfold mkSuccess
  apply lookup_mapped_keys_none
  intro g hg
  have hmem := mem_dedupKeepFirst hg
  have := List.of_mem_filter hmem
  intro hgf
  rw [hgf, hf] at this
  simp at this

/-- C5 counterexample: the claim says a request whose output format is
unsupported is rejected with an unsupported-format error before any
extraction; the code's export loop silently skips unknown formats, so a
PDF conversion requesting only `"docx"` performs extraction and returns a
*success* payload with no artifacts at all. -/
theorem c5_counterexample :
    convert_file ".pdf" "f" [[["A", "B"], ["1", "2"]]] "" ["docx"] =
      .ok { headers := ["A", "B"], rows := [["1", "2"]], files := [] } := by
  rfl

/-- C5 (amended): a request whose input extension (lower-cased) is not a
supported modality is rejected with the 400 unsupported-format error
before any extraction or export work — the result does not depend on the
extraction inputs at all — while an unsupported *output* format is not
rejected: it is silently skipped by the export loop, so no artifact is
produced under its name. -/
theorem c5_amended_format_rejection :
    (∀ (ext fileId : String) (tables : List RawTable) (text : String)
        (formats : List String),
        pyLower ext ≠ ".pdf" → pyLower ext ≠ ".png" → pyLower ext ≠ ".jpg" →
          pyLower ext ≠ ".jpeg" →
          convert_file ext fileId tables text formats =
            .error (.http 400 "Unsupported file format")) ∧
    (∀ (ext fileId : String) (tables : List RawTable) (text : String)
        (formats : List String) (s : ConvSuccess) (f : String),
        convert_file ext fileId tables text formats = .ok s →
        supportedExport f = false → s.files.lookup f = none) := by
  constructor
  · intro ext fileId tables text formats h1 h2 h3 h4
    unfold convert_file
    rw [if_neg h1, if_neg (by
      intro hor
      rcases hor with h | h | h
      · exact h2 h
      · exact h3 h
      · exact h4 h)]
  · intro ext fileId tables text formats s f hok hf
    simp only [convert_file] at hok
    by_cases hpdf : pyLower ext = ".pdf"
    · rw [if_pos hpdf] at hok
      by_cases hdf : extract_tables_from_pdf tables = []
      · rw [if_pos hdf] at hok
        exact absurd hok (by simp)
      · rw [if_neg hdf, Except.ok.injEq] at hok
        rw [← hok]
        exact mkSuccess_files_lookup _ _ _ _ hf
    · rw [if_neg hpdf] at hok
      by_cases himg : pyLower ext = ".png" ∨ pyLower ext = ".jpg" ∨ pyLower ext = ".jpeg"
      · rw [if_pos himg] at hok
        cases hocr : process_image_ocr text with
        | error e =>
          rw [hocr] at hok
          exact absurd hok (by simp)
        | ok data =>
          rw [hocr, Except.ok.injEq] at hok
          rw [← hok]
          exact mkSuccess_files_lookup _ _ _ _ hf
      · rw [if_neg himg] at hok
        exact absurd hok (by simp)

/-- C5 witness: both amended halves at concrete inputs. -/
theorem c5_amended_witness :
    convert_file ".docx" "f" [[["A"], ["1"]]] "x" ["xlsx"] =
      .error (.http 400 "Unsupported file format") ∧
    ({ headers := ["A", "B"], rows := [["1", "2"]], files := [] } :
        ConvSuccess).files.lookup "docx" = none := by
  refine ⟨c5_amended_format_rejection.1 ".docx" "f" [[["A"], ["1"]]] "x" ["xlsx"]
      (by decide) (by decide) (by decide) (by decide),
    c5_amended_format_rejection.2 ".pdf" "f" [[["A", "B"], ["1", "2"]]] "" ["docx"]
      _ "docx" rfl rfl⟩

/-- C6: in every non-header row, a cell at a numeric column position (3 or
4) whose text parses as a number after stripping commas and whitespace
produces no numeric finding, and a non-parsing cell produces exactly one
finding of severity `critical` with message `"Value must be numeric"`. -/
theorem c6_numeric_rule (data : List (List String)) (r c : Nat)
    (row : List String) (cell : String) (hr : r ≠ 0)
    (hrow : data[r]? = some row) (hcell : row[c]? = some cell)
    (hc : c = 3 ∨ c = 4) :
    ((validate_table data).filter (fun f =>
        f.row == r && f.column == c && f.severity == "critical" &&
          f.message == "Value must be numeric")).length =
      (if pyFloatOk (pyStrip (removeCommas cell)) then 0 else 1) := by
  have hm := validate_table_filter_at data r c row cell hr hrow hcell
  have hsplit : (validate_table data).filter (fun f =>
      f.row == r && f.column == c && f.severity == "critical" &&
        f.message == "Value must be numeric") =
    (cellFindings r c cell).filter (fun f =>
      f.severity == "critical" && f.message == "Value must be numeric") := by
    rw [← hm, List.filter_filter]
    apply List.filter_congr
    intro f _
    cases f.row == r <;> cases f.column == c <;> cases f.severity == "critical" <;>
      cases f.message == "Value must be numeric" <;> rfl
  rw [hsplit, cellFindings_numeric_filter r c cell hc]
  cases pyFloatOk (pyStrip (removeCommas cell)) <;> rfl

/-- C6 witness: `"1,234.5"` in column 3 passes, `"12a4"` in column 4 fails
with exactly one critical finding. -/
theorem c6_witness :
    ((validate_table [["h0", "h1", "h2", "h3", "h4"],
        ["a", "b", "2024-01-15", "1,234.5", "12a4"]]).filter (fun f =>
        f.row == 1 && f.column == 4 && f.severity == "critical" &&
          f.message == "Value must be numeric")).length = 1 ∧
    ((validate_table [["h0", "h1", "h2", "h3", "h4"],
        ["a", "b", "2024-01-15", "1,234.5", "12a4"]]).filter (fun f =>
        f.row == 1 && f.column == 3 && f.severity == "critical" &&
          f.message == "Value must be numeric")).length = 0 := by
  constructor
  · exact (c6_numeric_rule _ 1 4 _ "12a4" (by decide) rfl rfl (Or.inr rfl)).trans
      (by decide)
  · exact (c6_numeric_rule _ 1 3 _ "1,234.5" (by decide) rfl rfl (Or.inl rfl)).trans
      (by decide)

/-- C7 counterexample: the claim requires a 2-digit month and day and the
message `"Invalid date format"`; the code's `strptime('%Y-%m-%d')` also
accepts 1-digit months and days, so `"2024-1-15"` produces *no* finding,
and the finding it does emit (for `"15/01/2024"`) carries the message
`"Invalid date format (should be YYYY-MM-DD)"`. -/
theorem c7_counterexample :
    validate_table [["h0", "h1", "h2", "h3", "h4"],
        ["a", "b", "2024-1-15", "1", "2"]] = [] ∧
    validate_table [["h0", "h1", "h2", "h3", "h4"],
        ["a", "b", "15/01/2024", "1", "2"]] =
      [{ row := 1, column := 2, type := "error", severity := "warning",
         message := "Invalid date format (should be YYYY-MM-DD)" }] := by
  exact ⟨rfl, rfl⟩

/-- C7 (amended): in every non-header row, the cell at the date column
(position 2) produces no date finding iff its trimmed text is accepted by
`strptime('%Y-%m-%d')` — a 4-digit year, a 1-or-2-digit month and day,
and a valid proleptic-Gregorian calendar date — and otherwise produces
exactly one finding of severity `warning` with message
`"Invalid date format (should be YYYY-MM-DD)"`. -/
theorem c7_date_rule (data : List (List String)) (r : Nat)
    (row : List String) (cell : String) (hr : r ≠ 0)
    (hrow : data[r]? = some row) (hcell : row[2]? = some cell) :
    ((validate_table data).filter (fun f =>
        f.row == r && f.column == 2 && f.severity == "warning" &&
          f.message == "Invalid date format (should be YYYY-MM-DD)")).length =
      (if strptimeYmd (pyStrip cell) then 0 else 1) := by
  have hm := validate_table_filter_at data r 2 row cell hr hrow hcell
  have hsplit : (validate_table data).filter (fun f =>
      f.row == r && f.column == 2 && f.severity == "warning" &&
        f.message == "Invalid date format (should be YYYY-MM-DD)") =
    (cellFindings r 2 cell).filter (fun f =>
      f.severity == "warning" &&
        f.message == "Invalid date format (should be YYYY-MM-DD)") := by
    rw [← hm, List.filter_filter]
    apply List.filter_congr
    intro f _
    cases f.row == r <;> cases f.column == 2 <;> cases f.severity == "warning" <;>
      cases f.message == "Invalid date format (should be YYYY-MM-DD)" <;> rfl
  rw [hsplit, cellFindings_date_filter r cell]
  cases strptimeYmd (pyStrip cell) <;> rfl

/-- C7 witness: `"2024-01-15"` passes and `"15/01/2024"` fails with
exactly one warning finding. -/
theorem c7_witness :
    ((validate_table [["h0", "h1", "h2", "h3", "h4"],
        ["a", "b", "15/01/2024", "1", "2"]]).filter (fun f =>
        f.row == 1 && f.column == 2 && f.severity == "warning" &&
          f.message == "Invalid date format (should be YYYY-MM-DD)")).length = 1 ∧
    ((validate_table [["h0", "h1", "h2", "h3", "h4"],
        ["a", "b", "2024-01-15", "1", "2"]]).filter (fun f =>
        f.row == 1 && f.column == 2 && f.severity == "warning" &&
          f.message == "Invalid date format (should be YYYY-MM-DD)")).length = 0 := by
  constructor
  · exact (c7_date_rule _ 1 _ "15/01/2024" (by decide) rfl rfl).trans (by decide)
  · exact (c7_date_rule _ 1 _ "2024-01-15" (by decide) rfl rfl).trans (by decide)

/-- C8: a non-header cell whose raw text contains one of the digraphs
`"O0"`, `"l1"`, `"S5"` receives the `info`-severity OCR-confusion finding
*appended after* whatever mandatory/numeric/date findings the cell already
produced — in addition to them, never instead of them. -/
theorem c8_ocr_confusion (data : List (List String)) (r c : Nat)
    (row : List String) (cell : String) (hr : r ≠ 0)
    (hrow : data[r]? = some row) (hcell : row[c]? = some cell)
    (htrig : hasConfusable cell = true) :
    (validate_table data).filter (fun f => f.row == r && f.column == c) =
      cellFindingsCore r c cell ++
        [{ row := r, column := c, type := "warning", severity := "info",
           message := "Possible OCR confusion (O/0, l/1, S/5)" }] := by
  rw [validate_table_filter_at data r c row cell hr hrow hcell]
  simp [cellFindings, htrig]

/-- C8 witness: `"O0"` in numeric column 3 yields the critical numeric
finding *and* the info OCR finding, in that order. -/
theorem c8_witness :
    (validate_table [["h0", "h1", "h2", "h3", "h4"],
        ["a", "b", "2024-01-15", "O0", "1"]]).filter
        (fun f => f.row == 1 && f.column == 3) =
      [{ row := 1, column := 3, type := "error", severity := "critical",
         message := "Value must be numeric" },
       { row := 1, column := 3, type := "warning", severity := "info",
         message := "Possible OCR confusion (O/0, l/1, S/5)" }] := by
  exact (c8_ocr_confusion _ 1 3 _ "O0" (by decide) rfl rfl (by decide)).trans
    (by decide)

/-- C9: a non-header cell at column 2 that is empty or whitespace-only
receives exactly two findings — the critical mandatory-field finding and
the warning date finding, in that order — and neither a numeric nor an
OCR-confusion finding. -/
theorem c9_empty_date_cell (data : List (List String)) (r : Nat)
    (row : List String) (cell : String) (hr : r ≠ 0)
    (hrow : data[r]? = some row) (hcell : row[2]? = some cell)
    (hempty : pyStrip cell = "") :
    (validate_table data).filter (fun f => f.row == r && f.column == 2) =
      [{ row := r, column := 2, type := "error", severity := "critical",
         message := "Mandatory field cannot be empty" },
       { row := r, column := 2, type := "error", severity := "warning",
         message := "Invalid date format (should be YYYY-MM-DD)" }] := by
  rw [validate_table_filter_at data r 2 row cell hr hrow hcell]
  exact cellFindings_empty_cell r cell hempty

/-- C9 witness: a whitespace-only date cell gets exactly the mandatory
and date findings. -/
theorem c9_witness :
    (validate_table [["h0", "h1", "h2", "h3", "h4"],
        ["a", "b", " ", "1", "2"]]).filter
        (fun f => f.row == 1 && f.column == 2) =
      [{ row := 1, column := 2, type := "error", severity := "critical",
         message := "Mandatory field cannot be empty" },
       { row := 1, column := 2, type := "error", severity := "warning",
         message := "Invalid date format (should be YYYY-MM-DD)" }] := by
  exact c9_empty_date_cell _ 1 _ " " (by decide) rfl rfl (by decide)

/-- C10: every exporter succeeds exactly when each row carries a cell
entry for every declared header; if some row omits a declared header, the
export raises the lookup error (`KeyError`) instead of emitting an empty
cell. -/
theorem c10_exports_require_complete_rows (T : TableData) :
    (isOkE (save_as_xlsx T) = true ↔ rowsComplete T) ∧
    (isOkE (save_as_csv T) = true ↔ rowsComplete T) ∧
    (isOkE (save_as_xml T) = true ↔ rowsComplete T) := by
  have key : ∀ (β : Type) (g : String → PyValue → β),
      (isOkE (mapE (mapHeaders g T.headers) T.rows) = true ↔ rowsComplete T) := by
    intro β g
    rw [mapE_isOk_iff]
    unfold rowsComplete
    constructor
    · intro hall row hrow h hh
      exact (mapHeaders_isOk_iff g T.headers row).1 (hall row hrow) h hh
    · intro hall row hrow
      exact (mapHeaders_isOk_iff g T.headers row).2 (fun h hh => hall row hrow h hh)
  refine ⟨?_, ?_, ?_⟩
  · unfold save_as_xlsx
    rw [isOkE_map]
    exact key _ _
  · unfold save_as_csv
    rw [isOkE_map]
    exact key _ _
  · unfold save_as_xml
    rw [isOkE_map, mapE_isOk_iff]
    unfold rowsComplete
    constructor
    · intro hall row hrow h hh
      have hx := hall row hrow
      rw [isOkE_map] at hx
      exact (mapHeaders_isOk_iff _ T.headers row).1 hx h hh
    · intro hall row hrow
      rw [isOkE_map]
      exact (mapHeaders_isOk_iff _ T.headers row).2 (fun h hh => hall row hrow h hh)

/-- C10 witness: a row omitting header `"B"` makes every export fail, and
the xlsx export raises precisely `KeyError("B")`. -/
theorem c10_witness :
    isOkE (save_as_xlsx c10BadTable) = false ∧
    ¬ rowsComplete c10BadTable ∧
    save_as_xlsx c10BadTable = .error "B" := by
  have h := (c10_exports_require_complete_rows c10BadTable).1
  refine ⟨?_, by decide, rfl⟩
  cases hx : isOkE (save_as_xlsx c10BadTable) with
  | false => rfl
  | true => exact absurd (h.1 hx) (by decide)
